import Mathlib

/-!
Verification of `k8s-psl` (src/main.rs): a CLI tool that runs a child
command and, if it exits successfully, applies a single label to a
Kubernetes Pod or Job via server-side apply, translating every outcome
into a process exit code.

Strings handled by the parsers are embedded as `List Char`.  The split
functions below mirror Rust's `str::split` (for a one-character,
non-empty separator) and `Vec::join`.
-/

namespace K8sPsl

/-- First occurrence split: `splitFirst sep s = some (a, b)` when
`s = a ++ sep :: b` and `sep ∉ a`; `none` when `sep` does not occur. -/
def splitFirst (sep : Char) : List Char → Option (List Char × List Char)
  | [] => none
  | c :: cs =>
    if c = sep then some ([], cs)
    else
      match splitFirst sep cs with
      | none => none
      | some (a, b) => some (c :: a, b)

/-- All-occurrences split, mirroring Rust's `str::split` with a
one-character separator: always returns at least one segment, and an
empty trailing segment after a final separator. -/
def splitOn (sep : Char) : List Char → List (List Char)
  | [] => [[]]
  | c :: cs =>
    if c = sep then [] :: splitOn sep cs
    else
      match splitOn sep cs with
      | [] => [[c]]
      | a :: rest => (c :: a) :: rest

/-- Join with a one-character separator, mirroring Rust's `Vec::join`. -/
def joinSep (sep : Char) : List (List Char) → List Char
  | [] => []
  | [a] => a
  | a :: rest => a ++ sep :: joinSep sep rest

theorem splitOn_ne_nil (sep : Char) (s : List Char) : splitOn sep s ≠ [] := by
  match s with
  | [] => simp [splitOn]
  | c :: cs =>
    by_cases h : c = sep
    · simp [splitOn, h]
    · have ih := splitOn_ne_nil sep cs
      cases hs : splitOn sep cs with
      | nil => exact absurd hs ih
      | cons a rest => simp [splitOn, h, hs]

theorem splitFirst_of_not_mem (sep : Char) (s : List Char) (h : sep ∉ s) :
    splitFirst sep s = none := by
  induction s with
  | nil => rfl
  | cons c cs ih =>
    have hc : ¬ c = sep := fun hc => h (hc ▸ List.mem_cons_self c cs)
    have hcs : sep ∉ cs := fun hm => h (List.mem_cons_of_mem c hm)
    simp [splitFirst, hc, ih hcs]

theorem splitFirst_decomp (sep : Char) (s a b : List Char)
    (h : splitFirst sep s = some (a, b)) : s = a ++ sep :: b ∧ sep ∉ a := by
  induction s generalizing a b with
  | nil => simp [splitFirst] at h
  | cons c cs ih =>
    by_cases hc : c = sep
    · simp [splitFirst, hc] at h
      obtain ⟨ha, hb⟩ := h
      subst ha; subst hb; subst hc
      exact ⟨rfl, by simp⟩
    · simp [splitFirst, hc] at h
      cases hsp : splitFirst sep cs with
      | none => rw [hsp] at h; simp at h
      | some ab =>
        obtain ⟨a0, b0⟩ := ab
        rw [hsp] at h
        simp at h
        obtain ⟨ha, hb⟩ := h
        obtain ⟨hcs, hmem⟩ := ih a0 b0 hsp
        subst hb
        rw [ha.symm]
        constructor
        · simp [hcs]
        · intro hm
          rcases List.mem_cons.mp hm with h1 | h2
          · exact hc h1.symm
          · exact hmem h2

theorem splitOn_of_not_mem (sep : Char) (s : List Char) (h : sep ∉ s) :
    splitOn sep s = [s] := by
  induction s with
  | nil => rfl
  | cons c cs ih =>
    have hc : ¬ c = sep := fun hc => h (hc ▸ List.mem_cons_self c cs)
    have hcs : sep ∉ cs := fun hm => h (List.mem_cons_of_mem c hm)
    simp [splitOn, hc, ih hcs]

theorem splitOn_append (sep : Char) (a b : List Char) (h : sep ∉ a) :
    splitOn sep (a ++ sep :: b) = a :: splitOn sep b := by
  induction a with
  | nil => simp [splitOn]
  | cons c a' ih =>
    have hc : ¬ c = sep := fun hc => h (hc ▸ List.mem_cons_self c a')
    have ha' : sep ∉ a' := fun hm => h (List.mem_cons_of_mem c hm)
    simp only [List.cons_append, splitOn, if_neg hc, List.append_eq]
    rw [ih ha']

theorem joinSep_splitOn (sep : Char) (s : List Char) :
    joinSep sep (splitOn sep s) = s := by
  induction s with
  | nil => rfl
  | cons c cs ih =>
    by_cases hc : c = sep
    · cases hs : splitOn sep cs with
      | nil => exact absurd hs (splitOn_ne_nil sep cs)
      | cons a rest =>
        rw [hs] at ih
        subst hc
        simp [splitOn, hs, joinSep, ih]
    · cases hs : splitOn sep cs with
      | nil => exact absurd hs (splitOn_ne_nil sep cs)
      | cons a rest =>
        rw [hs] at ih
        cases rest with
        | nil =>
          simp [joinSep] at ih
          simp [splitOn, hc, hs, joinSep, ih]
        | cons a2 rest2 =>
          simp [joinSep] at ih
          simp [splitOn, hc, hs, joinSep, ih]

/-! ### Label parsing (src/main.rs, `parse_label`)

The source checks the input against the anchored regex
`^([a-z0-9A-Z.]{1,253}/)?[a-z0-9A-Z\-_.]{0,62}[a-z0-9A-Z]=[a-z0-9A-Z\-_.]{0,62}[a-z0-9A-Z]$`
and, on a match, splits on `=` and returns the first two segments.
None of the regex's character classes contains `=` or `/`, so a match
decomposes uniquely at the first `=` of the input and (for the optional
prefix group) at the first `/` of the key; the definitions below follow
that unique decomposition. -/

/-- The regex class `[a-z0-9A-Z]` (ASCII alphanumeric). -/
def isAsciiAlnum (c : Char) : Bool :=
  ('a' ≤ c && c ≤ 'z') || ('A' ≤ c && c ≤ 'Z') || ('0' ≤ c && c ≤ '9')

/-- The regex class `[a-z0-9A-Z.]` used for the optional key prefix. -/
def labelPrefixChar (c : Char) : Bool :=
  isAsciiAlnum c || c == '.'

/-- The regex class `[a-z0-9A-Z\-_.]` used for key-name and value segments. -/
def labelNameChar (c : Char) : Bool :=
  isAsciiAlnum c || c == '-' || c == '_' || c == '.'

/-- The regex fragment `[a-z0-9A-Z\-_.]{0,62}[a-z0-9A-Z]`: 1 to 63
characters from the name class, the last of which is alphanumeric. -/
def labelSeg (s : List Char) : Bool :=
  match s.getLast? with
  | none => false
  | some c => s.length ≤ 63 && s.dropLast.all labelNameChar && isAsciiAlnum c

/-- The regex fragment `([a-z0-9A-Z.]{1,253}/)?[a-z0-9A-Z\-_.]{0,62}[a-z0-9A-Z]`
applied to the key (the part before the first `=`): an optional prefix of
1 to 253 prefix-class characters ending at the first `/`, then a name
segment. -/
def labelKey (s : List Char) : Bool :=
  match splitFirst '/' s with
  | none => labelSeg s
  | some (p, rest) =>
    (1 ≤ p.length && p.length ≤ 253 && p.all labelPrefixChar) && labelSeg rest

/-- Whole-string match of the source's label regex. -/
def labelRegexMatch (s : List Char) : Bool :=
  match splitFirst '=' s with
  | none => false
  | some (k, v) => labelKey k && labelSeg v

/-- `parse_label` from src/main.rs: reject unless the regex matches the
whole input, then split on `=` and return the first two segments
(`parts.next().unwrap_or_default()` twice). -/
def parse_label (s : List Char) : Option (List Char × List Char) :=
  if labelRegexMatch s then
    let parts := splitOn '=' s
    some (parts.headD [], (parts.drop 1).headD [])
  else
    none

/-! ### The spec's label grammar, for comparison with `parse_label`.

These definitions follow the spec's words, not the source: "key
optionally prefixed by `<dns-subdomain>/`, both prefix and name segments
restricted to `[a-zA-Z0-9.]` / `[a-zA-Z0-9\-_.]` with alphanumeric
boundary characters, each non-prefix segment 1–63 characters; value
similarly constrained, 1–63 characters", with "exactly one `=`". -/

/-- Following the spec's words: a non-prefix segment (key name or value)
is 1–63 characters from the name class whose first and last characters
are alphanumeric. -/
def specLabelSeg (s : List Char) : Bool :=
  (1 ≤ s.length && s.length ≤ 63 && s.all labelNameChar) &&
    (match s.head? with
     | none => false
     | some c => isAsciiAlnum c) &&
    (match s.getLast? with
     | none => false
     | some c => isAsciiAlnum c)

/-- Following the spec's words: the optional key prefix is a
dns-subdomain, 1–253 characters from the prefix class with alphanumeric
boundary characters. -/
def specLabelSub (s : List Char) : Bool :=
  (1 ≤ s.length && s.length ≤ 253 && s.all labelPrefixChar) &&
    (match s.head? with
     | none => false
     | some c => isAsciiAlnum c) &&
    (match s.getLast? with
     | none => false
     | some c => isAsciiAlnum c)

/-- Following the spec's words: a key is a name segment optionally
preceded by a dns-subdomain prefix and `/`. -/
def specLabelKey (s : List Char) : Bool :=
  match splitFirst '/' s with
  | none => specLabelSeg s
  | some (p, rest) => specLabelSub p && specLabelSeg rest

/-- Following the spec's words: a label string is a valid key, exactly
one `=`, and a valid value segment. -/
def specLabelGrammar (s : List Char) : Bool :=
  match splitFirst '=' s with
  | none => false
  | some (k, v) => specLabelKey k && specLabelSeg v

theorem labelSeg_of_specLabelSeg (s : List Char) (h : specLabelSeg s = true) :
    labelSeg s = true := by
  unfold specLabelSeg at h
  unfold labelSeg
  cases hl : s.getLast? with
  | none => rw [hl] at h; simp at h
  | some c =>
    rw [hl] at h
    simp only [Bool.and_eq_true, decide_eq_true_eq] at h
    obtain ⟨⟨⟨⟨h1, h2⟩, h3⟩, _⟩, h5⟩ := h
    simp only [Bool.and_eq_true, decide_eq_true_eq]
    refine ⟨⟨h2, ?_⟩, h5⟩
    rw [List.all_eq_true] at h3 ⊢
    intro x hx
    exact h3 x (List.dropLast_sublist s |>.subset hx)

theorem labelKey_of_specLabelKey (s : List Char) (h : specLabelKey s = true) :
    labelKey s = true := by
  unfold specLabelKey at h
  unfold labelKey
  cases hs : splitFirst '/' s with
  | none => rw [hs] at h; exact labelSeg_of_specLabelSeg s h
  | some pr =>
    obtain ⟨p, rest⟩ := pr
    rw [hs] at h
    simp only [Bool.and_eq_true] at h
    obtain ⟨hp, hrest⟩ := h
    unfold specLabelSub at hp
    simp only [Bool.and_eq_true] at hp
    simp only [Bool.and_eq_true]
    exact ⟨hp.1.1, labelSeg_of_specLabelSeg rest hrest⟩

/-- Every character of a segment accepted by `labelSeg` is in the name
class (in particular it is neither `=` nor `/`). -/
theorem labelSeg_all_nameChar (s : List Char) (h : labelSeg s = true) :
    ∀ c ∈ s, labelNameChar c = true := by
  unfold labelSeg at h
  cases hl : s.getLast? with
  | none => rw [hl] at h; simp at h
  | some c =>
    rw [hl] at h
    simp only [Bool.and_eq_true] at h
    obtain ⟨⟨_, hall⟩, hc⟩ := h
    have hne : s ≠ [] := by
      intro he; rw [he] at hl; simp at hl
    intro x hx
    have hdecomp := List.dropLast_append_getLast hne
    have hcl : s.getLast hne = c := by
      have := List.getLast?_eq_getLast s hne
      rw [hl] at this
      exact (Option.some.injEq _ _ ▸ this).symm
    rw [← hdecomp] at hx
    rcases List.mem_append.mp hx with h1 | h2
    · exact (List.all_eq_true.mp hall) x h1
    · have : x = c := by
        rw [hcl] at h2
        simpa using h2
      subst this
      unfold labelNameChar
      simp [hc]

/-! ### Resource parsing (src/main.rs, `parse_resource`) -/

/-- The two resource kinds the tool accepts. -/
inductive ResourceKind
  | Pod
  | Job
deriving DecidableEq, Repr

/-- `parse_resource` from src/main.rs: split on `/`, match the first
segment against `job` / `pod`, and rejoin the remaining segments with
`/` to form the name.  `splitOn` never returns `[]`, so the `[]` arm is
unreachable (in Rust, `parts.next()` on a `split` iterator is always
`Some` the first time). -/
def parse_resource (s : List Char) : Option (ResourceKind × List Char) :=
  match splitOn '/' s with
  | [] => none
  | k :: rest =>
    if k = [ 'j', 'o', 'b' ] then some (ResourceKind.Job, joinSep '/' rest)
    else if k = [ 'p', 'o', 'd' ] then some (ResourceKind.Pod, joinSep '/' rest)
    else none

/-! ### The run model (src/main.rs, `main` and `patch_resource!`)

`main` is embedded as a function from the parsed CLI arguments and the
environment's responses (does config inference succeed, does client
construction succeed, does the spawn succeed, how does the child
terminate, how does the patch request fare) to the list of externally
visible operations performed, in order, together with the run's result.
An `Err` returned from `main` makes the process print the error and
exit with code 1. -/

/-- Termination state of the child process: a numeric exit code
(`ExitStatus::code()` is `Some`), or none (e.g. killed by a signal). -/
inductive ChildStatus
  | exited (code : Int)
  | signaled
deriving DecidableEq, Repr

/-- `ExitStatus::success()`: true exactly when the code is `Some(0)`. -/
def statusSuccess : ChildStatus → Bool
  | .exited 0 => true
  | _ => false

/-- `ExitStatus::code()`. -/
def statusCode : ChildStatus → Option Int
  | .exited c => some c
  | .signaled => none

/-- Outcome of the patch call, mirroring the `kube::Error` cases the
source distinguishes: `Err(Error::Api(_))`, `Err(Error::Service(_))`,
any other `Err`, and success. -/
inductive PatchOutcome
  | success
  | apiError
  | serviceError
  | otherError
deriving DecidableEq, Repr

/-- The environment's responses to the run's external operations. -/
structure World where
  inferOk : Bool
  clientOk : Bool
  spawnOk : Bool
  child : ChildStatus
  patch : PatchOutcome
deriving DecidableEq, Repr

/-- The parsed CLI arguments (the `Cli` struct): namespace (default
`"default"`), parsed label, parsed resource, and the trailing command
tokens.  `namespace` is a Lean keyword, so the field is `nspace`. -/
structure Cli where
  nspace : String
  label : String × String
  resource : ResourceKind × String
  command : List String
deriving DecidableEq, Repr

/-- Externally visible operations of a run, in program order. -/
inductive Event
  | inferConfig
  | buildClient (connectTimeout readTimeout writeTimeout : Nat)
  | spawn (prog : String) (args : List String)
  | patchRequest (kind : ResourceKind) (ns name : String)
      (label : String × String) (fieldManager : String)
      (body : List (String × String))
deriving DecidableEq, Repr

/-- Result of the run: `ok code` for `Ok(ExitCode::from(code))`, `err`
for an `Err` bubbled out of `main` by `?`. -/
inductive RunResult
  | ok (code : Nat)
  | err (msg : String)
deriving DecidableEq, Repr

/-- Process exit code of a run result: an `Err` return from `main`
terminates the process with code 1. -/
def exitCode : RunResult → Nat
  | .ok c => c
  | .err _ => 1

/-- The exit-code translation of `patch_resource!`:
`Err(Error::Api(_))` ↦ 66, `Err(Error::Service(_))` ↦ 68, other errors
↦ 1, success ↦ 0. -/
def patchExitCode : PatchOutcome → Nat
  | .apiError => 66
  | .serviceError => 68
  | .otherError => 1
  | .success => 0

/-- The result computed from the child status when it is unsuccessful:
`u8::try_from(status.code().unwrap_or(1))` — a numeric code in 0..=255
is propagated, a code outside that range makes `try_from` fail (an
`Err` return, exit code 1), and a missing code defaults to 1. -/
def childFailResult (st : ChildStatus) : RunResult :=
  match statusCode st with
  | some c => if 0 ≤ c ∧ c ≤ 255 then .ok c.toNat else .err "TryFromIntError"
  | none => .ok 1

/-- The body of the server-side-apply patch built by `patch_resource!`:
`ObjectMeta { labels: Some([label]), ..Default }` — exactly the one
supplied label key. -/
def patchBody (label : String × String) : List (String × String) := [label]

/-- The run: `main` from src/main.rs.  Mirrors the source line by line:
`Config::infer()` (with the three 15-second timeouts set before
`Client::try_from`), then the child command (first token is the
program, failing with `Missing command` when there is none), then — only
when `status.success()` — the patch, dispatched on the resource kind,
with field manager `k8s-psl`. -/
def mainRun (cli : Cli) (w : World) : List Event × RunResult :=
  if !w.inferOk then ([.inferConfig], .err "config inference failed")
  else if !w.clientOk then
    ([.inferConfig, .buildClient 15 15 15], .err "client construction failed")
  else
    match cli.command with
    | [] => ([.inferConfig, .buildClient 15 15 15], .err "Missing command")
    | prog :: args =>
      if !w.spawnOk then
        ([.inferConfig, .buildClient 15 15 15, .spawn prog args],
          .err "spawn failed")
      else if !statusSuccess w.child then
        ([.inferConfig, .buildClient 15 15 15, .spawn prog args],
          childFailResult w.child)
      else
        match cli.resource.1 with
        | ResourceKind.Pod =>
          ([.inferConfig, .buildClient 15 15 15, .spawn prog args,
              .patchRequest ResourceKind.Pod cli.nspace cli.resource.2
                cli.label "k8s-psl" (patchBody cli.label)],
            .ok (patchExitCode w.patch))
        | ResourceKind.Job =>
          ([.inferConfig, .buildClient 15 15 15, .spawn prog args,
              .patchRequest ResourceKind.Job cli.nspace cli.resource.2
                cli.label "k8s-psl" (patchBody cli.label)],
            .ok (patchExitCode w.patch))

/-- Is the event an outbound patch request? -/
def isPatchEvent : Event → Bool
  | .patchRequest _ _ _ _ _ _ => true
  | _ => false

/-- Is the event a child-process spawn? -/
def isSpawnEvent : Event → Bool
  | .spawn _ _ => true
  | _ => false

/-- Number of outbound patch requests in an event list. -/
def patchCount (evs : List Event) : Nat := evs.countP (fun e => isPatchEvent e)

/-- Number of spawns in an event list. -/
def spawnCount (evs : List Event) : Nat := evs.countP (fun e => isSpawnEvent e)

/-- Program-order stage of each event, for stating that the operations
run strictly sequentially. -/
def stage : Event → Nat
  | .inferConfig => 0
  | .buildClient _ _ _ => 1
  | .spawn _ _ => 2
  | .patchRequest _ _ _ _ _ _ => 3

/-! ### Server-side apply (external collaborator)

Modelled from the spec: the Kubernetes API server's server-side-apply
merge is not part of this repository; the spec describes it as "a patch
strategy where the API server merges a named field manager's declared
fields into an object, leaving other managers' fields untouched, and is
idempotent under repeated identical application".  A resource's label
state is a list of key/value entries each attributed to the manager
that set it. -/

/-- One label entry of a resource, with the field manager owning it. -/
structure LabelEntry where
  key : String
  value : String
  manager : String
deriving DecidableEq, Repr

/-- Does the patch body assert the given key? -/
def assertedKey (body : List (String × String)) (k : String) : Bool :=
  body.any (fun kv => kv.1 == k)

/-- Modelled from the spec: server-side-apply merge of a patch body by a
field manager.  The manager's declared fields replace its previous
ones; entries of other managers at unasserted keys are untouched. -/
def ssaApply (m : String) (body : List (String × String))
    (st : List LabelEntry) : List LabelEntry :=
  st.filter (fun f => !(assertedKey body f.key) && !(f.manager == m)) ++
    body.map (fun kv => LabelEntry.mk kv.1 kv.2 m)

/-! ### Theorems about the parsers -/

theorem parse_label_of_match (s k v : List Char)
    (hsp : splitFirst '=' s = some (k, v))
    (hk : labelKey k = true) (hv : labelSeg v = true) :
    parse_label s = some (k, v) := by
  have hmatch : labelRegexMatch s = true := by
    unfold labelRegexMatch
    rw [hsp]
    simp [hk, hv]
  obtain ⟨hdec, hnk⟩ := splitFirst_decomp '=' s k v hsp
  have hnv : '=' ∉ v := by
    intro hm
    have := labelSeg_all_nameChar v hv '=' hm
    simp [labelNameChar, isAsciiAlnum] at this
  have hsplit : splitOn '=' s = [k, v] := by
    rw [hdec, splitOn_append '=' k v hnk, splitOn_of_not_mem '=' v hnv]
  unfold parse_label
  rw [hmatch, hsplit]
  rfl

/-- Claim C4 (amended): every string matching the spec's label grammar is
accepted by `parse_label` and returned as the (key, value) split on the
first `=` with no normalization; strings with no `=`, or whose value or
key part fails the code's segment checks (empty, longer than 63
characters, a character outside the allowed classes, or a final
character that is not alphanumeric) are rejected; and every successful
parse is exactly the split on the first `=`.  (The code is more
permissive than the grammar: segment-initial boundary characters and
the prefix's boundary characters are not checked.) -/
theorem parse_label_characterization :
    (∀ s k v, specLabelGrammar s = true → splitFirst '=' s = some (k, v) →
      parse_label s = some (k, v))
    ∧ (∀ s, splitFirst '=' s = none → parse_label s = none)
    ∧ (∀ s k v, splitFirst '=' s = some (k, v) → labelSeg v = false →
      parse_label s = none)
    ∧ (∀ s k v, splitFirst '=' s = some (k, v) → labelKey k = false →
      parse_label s = none)
    ∧ (∀ s k v, parse_label s = some (k, v) → splitFirst '=' s = some (k, v)) := by
  refine ⟨?_, ?_, ?_, ?_, ?_⟩
  · intro s k v hg hsp
    unfold specLabelGrammar at hg
    rw [hsp] at hg
    simp only [Bool.and_eq_true] at hg
    exact parse_label_of_match s k v hsp
      (labelKey_of_specLabelKey k hg.1) (labelSeg_of_specLabelSeg v hg.2)
  · intro s h
    unfold parse_label labelRegexMatch
    rw [h]
    rfl
  · intro s k v hsp hv
    unfold parse_label labelRegexMatch
    rw [hsp]
    simp [hv]
  · intro s k v hsp hk
    unfold parse_label labelRegexMatch
    rw [hsp]
    simp [hk]
  · intro s k v hpl
    cases hm : labelRegexMatch s with
    | false =>
      unfold parse_label at hpl
      rw [hm] at hpl
      simp at hpl
    | true =>
      have hm' := hm
      unfold labelRegexMatch at hm'
      cases hsp : splitFirst '=' s with
      | none => rw [hsp] at hm'; simp at hm'
      | some kv =>
        obtain ⟨k0, v0⟩ := kv
        rw [hsp] at hm'
        simp only [Bool.and_eq_true] at hm'
        have heq := parse_label_of_match s k0 v0 hsp hm'.1 hm'.2
        rw [heq] at hpl
        simp at hpl
        rw [hpl.1, hpl.2]

/-- Witness for C4: the grammar-valid label `app=ok` parses to
(`app`, `ok`). -/
theorem parse_label_characterization_witness :
    parse_label [ 'a', 'p', 'p', '=', 'o', 'k' ] =
      some ([ 'a', 'p', 'p' ], [ 'o', 'k' ]) :=
  parse_label_characterization.1 [ 'a', 'p', 'p', '=', 'o', 'k' ]
    [ 'a', 'p', 'p' ] [ 'o', 'k' ] (by decide) (by decide)

/-- Counterexample for C4 as stated: `-a=b` violates the spec's label
grammar (the key's first character is not alphanumeric), yet
`parse_label` accepts it — the source's regex does not check the leading
boundary character of a segment. -/
theorem parse_label_grammar_violation_accepted :
    specLabelGrammar [ '-', 'a', '=', 'b' ] = false
    ∧ parse_label [ '-', 'a', '=', 'b' ] = some ([ '-', 'a' ], [ 'b' ]) := by
  constructor
  · decide
  · decide

/-- Claim C5: `pod/name` and `job/name` parse to the matching kind with
the name unchanged (even when the name itself contains `/`), and any
input whose leading segment (the text before the first `/`, or the whole
input when there is none) is neither `pod` nor `job` is rejected. -/
theorem parse_resource_characterization :
    (∀ name, parse_resource ('p' :: 'o' :: 'd' :: '/' :: name) =
      some (ResourceKind.Pod, name))
    ∧ (∀ name, parse_resource ('j' :: 'o' :: 'b' :: '/' :: name) =
      some (ResourceKind.Job, name))
    ∧ (∀ s, (splitOn '/' s).headD [] ≠ [ 'p', 'o', 'd' ] →
        (splitOn '/' s).headD [] ≠ [ 'j', 'o', 'b' ] →
        parse_resource s = none) := by
  refine ⟨?_, ?_, ?_⟩
  · intro name
    have hsp : splitOn '/' ('p' :: 'o' :: 'd' :: '/' :: name) =
        [ 'p', 'o', 'd' ] :: splitOn '/' name := by
      have h := splitOn_append '/' [ 'p', 'o', 'd' ] name (by decide)
      simpa using h
    simp [parse_resource, hsp, joinSep_splitOn]
  · intro name
    have hsp : splitOn '/' ('j' :: 'o' :: 'b' :: '/' :: name) =
        [ 'j', 'o', 'b' ] :: splitOn '/' name := by
      have h := splitOn_append '/' [ 'j', 'o', 'b' ] name (by decide)
      simpa using h
    simp [parse_resource, hsp, joinSep_splitOn]
  · intro s h1 h2
    cases hs : splitOn '/' s with
    | nil => exact absurd hs (splitOn_ne_nil '/' s)
    | cons k rest =>
      rw [hs] at h1 h2
      simp only [List.headD_cons] at h1 h2
      simp [parse_resource, hs, h1, h2]

/-- Witness for C5: `pod/my/name` parses to the Pod kind with name
`my/name`. -/
theorem parse_resource_characterization_witness :
    parse_resource [ 'p', 'o', 'd', '/', 'm', 'y', '/', 'n' ] =
      some (ResourceKind.Pod, [ 'm', 'y', '/', 'n' ]) :=
  parse_resource_characterization.1 [ 'm', 'y', '/', 'n' ]

/-! ### Theorems about the run -/

/-- The event trace of any run is one of four prefixes of the full
pipeline: config inference only, then client construction, then the
spawn, then the single patch request. -/
theorem mainRun_events (cli : Cli) (w : World) :
    (w.inferOk = false ∧ (mainRun cli w).1 = [Event.inferConfig])
    ∨ (mainRun cli w).1 = [Event.inferConfig, Event.buildClient 15 15 15]
    ∨ (∃ prog args, cli.command = prog :: args ∧
        (mainRun cli w).1 =
          [Event.inferConfig, Event.buildClient 15 15 15, Event.spawn prog args])
    ∨ (∃ prog args, cli.command = prog :: args ∧
        (mainRun cli w).1 =
          [Event.inferConfig, Event.buildClient 15 15 15, Event.spawn prog args,
            Event.patchRequest cli.resource.1 cli.nspace cli.resource.2
              cli.label "k8s-psl" (patchBody cli.label)]) := by
  cases h1 : w.inferOk with
  | false => exact Or.inl ⟨rfl, by simp [mainRun, h1]⟩
  | true =>
    cases h2 : w.clientOk with
    | false => exact Or.inr (Or.inl (by simp [mainRun, h1, h2]))
    | true =>
      cases h3 : cli.command with
      | nil => exact Or.inr (Or.inl (by simp [mainRun, h1, h2, h3]))
      | cons prog args =>
        cases h4 : w.spawnOk with
        | false =>
          exact Or.inr (Or.inr (Or.inl ⟨prog, args, rfl,
            by simp [mainRun, h1, h2, h3, h4]⟩))
        | true =>
          cases h5 : statusSuccess w.child with
          | false =>
            exact Or.inr (Or.inr (Or.inl ⟨prog, args, rfl,
              by simp [mainRun, h1, h2, h3, h4, h5]⟩))
          | true =>
            refine Or.inr (Or.inr (Or.inr ⟨prog, args, rfl, ?_⟩))
            cases hk : cli.resource.1 with
            | Pod => simp [mainRun, h1, h2, h3, h4, h5, hk]
            | Job => simp [mainRun, h1, h2, h3, h4, h5, hk]

/-- On the all-successful path up to the patch, the run reduces to the
full event list with the patch's exit-code translation as result. -/
theorem mainRun_success_path (cli : Cli) (w : World)
    (h1 : w.inferOk = true) (h2 : w.clientOk = true)
    (prog : String) (args : List String) (h3 : cli.command = prog :: args)
    (h4 : w.spawnOk = true) (h5 : w.child = ChildStatus.exited 0) :
    mainRun cli w =
      ([Event.inferConfig, Event.buildClient 15 15 15, Event.spawn prog args,
          Event.patchRequest cli.resource.1 cli.nspace cli.resource.2
            cli.label "k8s-psl" (patchBody cli.label)],
        RunResult.ok (patchExitCode w.patch)) := by
  have h5' : statusSuccess w.child = true := by
    rw [h5]; rfl
  cases hk : cli.resource.1 with
  | Pod => simp [mainRun, h1, h2, h3, h4, h5', hk]
  | Job => simp [mainRun, h1, h2, h3, h4, h5', hk]

/-- On a run where the child terminates unsuccessfully, the run stops
after the spawn and the result is the child-failure translation. -/
theorem mainRun_child_failure (cli : Cli) (w : World)
    (h1 : w.inferOk = true) (h2 : w.clientOk = true)
    (prog : String) (args : List String) (h3 : cli.command = prog :: args)
    (h4 : w.spawnOk = true) (h5 : statusSuccess w.child = false) :
    mainRun cli w =
      ([Event.inferConfig, Event.buildClient 15 15 15, Event.spawn prog args],
        childFailResult w.child) := by
  simp [mainRun, h1, h2, h3, h4, h5]

/-- Claim C1: when the child exits 0, a patch rejected with an API-level
error gives exit code 66, a service/connectivity error gives 68, any
other patch error gives 1, and success gives 0. -/
theorem run_patch_exit_codes (cli : Cli) (w : World)
    (h1 : w.inferOk = true) (h2 : w.clientOk = true)
    (prog : String) (args : List String) (h3 : cli.command = prog :: args)
    (h4 : w.spawnOk = true) (h5 : w.child = ChildStatus.exited 0) :
    (w.patch = PatchOutcome.apiError → exitCode (mainRun cli w).2 = 66)
    ∧ (w.patch = PatchOutcome.serviceError → exitCode (mainRun cli w).2 = 68)
    ∧ (w.patch = PatchOutcome.otherError → exitCode (mainRun cli w).2 = 1)
    ∧ (w.patch = PatchOutcome.success → exitCode (mainRun cli w).2 = 0) := by
  have hrun := mainRun_success_path cli w h1 h2 prog args h3 h4 h5
  refine ⟨?_, ?_, ?_, ?_⟩ <;> intro hp <;> rw [hrun] <;> rw [hp] <;> rfl

/-- Witness for C1: a concrete run whose patch is rejected with an
API-level error exits with code 66. -/
theorem run_patch_exit_codes_witness :
    exitCode (mainRun ⟨"default", ("k", "v"), (ResourceKind.Pod, "r"), ["prog"]⟩
      ⟨true, true, true, ChildStatus.exited 0, PatchOutcome.apiError⟩).2 = 66 :=
  (run_patch_exit_codes _ _ rfl rfl "prog" [] rfl rfl rfl).1 rfl

/-- Claim C2: a child exit code N with 1 ≤ N ≤ 255 becomes the tool's
exit code verbatim with no patch issued; a numeric code outside 0–255
makes the run fail (an error return, so exit code 1), still with no
patch issued. -/
theorem run_child_code_propagation (cli : Cli) (w : World)
    (h1 : w.inferOk = true) (h2 : w.clientOk = true)
    (prog : String) (args : List String) (h3 : cli.command = prog :: args)
    (h4 : w.spawnOk = true) :
    (∀ n : Int, w.child = ChildStatus.exited n → 1 ≤ n → n ≤ 255 →
      (mainRun cli w).2 = RunResult.ok n.toNat
        ∧ exitCode (mainRun cli w).2 = n.toNat
        ∧ patchCount (mainRun cli w).1 = 0)
    ∧ (∀ n : Int, w.child = ChildStatus.exited n → (n < 0 ∨ 255 < n) →
      (mainRun cli w).2 = RunResult.err "TryFromIntError"
        ∧ exitCode (mainRun cli w).2 = 1
        ∧ patchCount (mainRun cli w).1 = 0) := by
  constructor
  · intro n hc hge hle
    have hne : n ≠ 0 := by omega
    have h5 : statusSuccess w.child = false := by
      rw [hc]
      simp [statusSuccess, statusCode, hne]
    have hrun := mainRun_child_failure cli w h1 h2 prog args h3 h4 h5
    have hres : childFailResult w.child = RunResult.ok n.toNat := by
      rw [hc]
      simp only [childFailResult, statusCode]
      rw [if_pos ⟨by omega, hle⟩]
    rw [hrun, hres]
    exact ⟨rfl, rfl, rfl⟩
  · intro n hc hrange
    have hne : n ≠ 0 := by omega
    have h5 : statusSuccess w.child = false := by
      rw [hc]
      simp [statusSuccess, statusCode, hne]
    have hrun := mainRun_child_failure cli w h1 h2 prog args h3 h4 h5
    have hres : childFailResult w.child = RunResult.err "TryFromIntError" := by
      rw [hc]
      simp only [childFailResult, statusCode]
      rw [if_neg (by omega)]
    rw [hrun, hres]
    exact ⟨rfl, rfl, rfl⟩

/-- Witness for C2: a child exiting 7 yields tool exit code 7 with no
patch request. -/
theorem run_child_code_propagation_witness :
    (mainRun ⟨"default", ("k", "v"), (ResourceKind.Pod, "r"), ["prog"]⟩
        ⟨true, true, true, ChildStatus.exited 7, PatchOutcome.success⟩).2 =
      RunResult.ok ((7 : Int).toNat)
    ∧ exitCode (mainRun ⟨"default", ("k", "v"), (ResourceKind.Pod, "r"), ["prog"]⟩
        ⟨true, true, true, ChildStatus.exited 7, PatchOutcome.success⟩).2 =
      (7 : Int).toNat
    ∧ patchCount (mainRun ⟨"default", ("k", "v"), (ResourceKind.Pod, "r"), ["prog"]⟩
        ⟨true, true, true, ChildStatus.exited 7, PatchOutcome.success⟩).1 = 0 :=
  (run_child_code_propagation _ _ rfl rfl "prog" [] rfl rfl).1 7 rfl
    (by decide) (by decide)

/-- Claim C3: when the child exits 0 exactly one patch request is
issued, carrying the parsed namespace, resource name, and label, and
addressed to the API of the resource's kind; when the child process
failed, no patch request is ever issued. -/
theorem run_patch_issuance :
    (∀ (cli : Cli) (w : World) (prog : String) (args : List String),
      w.inferOk = true → w.clientOk = true → cli.command = prog :: args →
      w.spawnOk = true → w.child = ChildStatus.exited 0 →
      patchCount (mainRun cli w).1 = 1
        ∧ Event.patchRequest cli.resource.1 cli.nspace cli.resource.2
            cli.label "k8s-psl" (patchBody cli.label) ∈ (mainRun cli w).1)
    ∧ (∀ (cli : Cli) (w : World), statusSuccess w.child = false →
      patchCount (mainRun cli w).1 = 0) := by
  constructor
  · intro cli w prog args h1 h2 h3 h4 h5
    have hrun := mainRun_success_path cli w h1 h2 prog args h3 h4 h5
    rw [hrun]
    exact ⟨rfl, by simp⟩
  · intro cli w hs
    cases h1 : w.inferOk with
    | false =>
      have h : (mainRun cli w).1 = [Event.inferConfig] := by simp [mainRun, h1]
      rw [h]; rfl
    | true =>
      cases h2 : w.clientOk with
      | false =>
        have h : (mainRun cli w).1 =
            [Event.inferConfig, Event.buildClient 15 15 15] := by
          simp [mainRun, h1, h2]
        rw [h]; rfl
      | true =>
        cases h3 : cli.command with
        | nil =>
          have h : (mainRun cli w).1 =
              [Event.inferConfig, Event.buildClient 15 15 15] := by
            simp [mainRun, h1, h2, h3]
          rw [h]; rfl
        | cons prog args =>
          cases h4 : w.spawnOk with
          | false =>
            have h : (mainRun cli w).1 =
                [Event.inferConfig, Event.buildClient 15 15 15,
                  Event.spawn prog args] := by
              simp [mainRun, h1, h2, h3, h4]
            rw [h]; rfl
          | true =>
            rw [mainRun_child_failure cli w h1 h2 prog args h3 h4 hs]
            rfl

/-- Server-side apply is idempotent: a second identical apply by the
same manager leaves the label state unchanged. -/
theorem ssaApply_idem (m : String) (body : List (String × String))
    (st : List LabelEntry) :
    ssaApply m body (ssaApply m body st) = ssaApply m body st := by
  unfold ssaApply
  have hsnd : (body.map (fun kv => LabelEntry.mk kv.1 kv.2 m)).filter
      (fun f => !(assertedKey body f.key) && !(f.manager == m)) = [] := by
    rw [List.filter_eq_nil_iff]
    intro a ha
    rw [List.mem_map] at ha
    obtain ⟨kv, _, hkv⟩ := ha
    rw [← hkv]
    simp
  have hff : (st.filter (fun f => !(assertedKey body f.key) && !(f.manager == m))).filter
      (fun f => !(assertedKey body f.key) && !(f.manager == m)) =
      st.filter (fun f => !(assertedKey body f.key) && !(f.manager == m)) := by
    rw [List.filter_filter]
    exact List.filter_congr (fun a _ => Bool.and_self _)
  rw [List.filter_append, hsnd, List.append_nil, hff]

/-- Server-side apply does not remove another manager's entry at a key
the body does not assert. -/
theorem ssaApply_preserves (m : String) (body : List (String × String))
    (st : List LabelEntry) (f : LabelEntry)
    (hf : f ∈ st) (hm : f.manager ≠ m) (hk : assertedKey body f.key = false) :
    f ∈ ssaApply m body st := by
  unfold ssaApply
  apply List.mem_append_left
  rw [List.mem_filter]
  refine ⟨hf, ?_⟩
  simp [hk, hm]

/-- Witness for C3: a concrete successful run issues exactly one patch
request, carrying the namespace, resource name, and label. -/
theorem run_patch_issuance_witness :
    patchCount (mainRun ⟨"default", ("k", "v"), (ResourceKind.Pod, "r"), ["prog"]⟩
        ⟨true, true, true, ChildStatus.exited 0, PatchOutcome.success⟩).1 = 1
    ∧ Event.patchRequest ResourceKind.Pod "default" "r" ("k", "v") "k8s-psl"
        (patchBody ("k", "v")) ∈
      (mainRun ⟨"default", ("k", "v"), (ResourceKind.Pod, "r"), ["prog"]⟩
        ⟨true, true, true, ChildStatus.exited 0, PatchOutcome.success⟩).1 :=
  run_patch_issuance.1 _ _ "prog" [] rfl rfl rfl rfl rfl

/-- Claim C6: every patch request is attributed to field manager
`k8s-psl` and its body asserts exactly the one supplied label; under the
spec's server-side-apply merge semantics, applying the same body twice
with the same manager leaves the label state unchanged, and entries set
by other managers at unasserted keys are never removed. -/
theorem run_patch_attribution :
    (∀ (cli : Cli) (w : World) (kind : ResourceKind) (ns name : String)
        (lb : String × String) (fm : String) (body : List (String × String)),
      Event.patchRequest kind ns name lb fm body ∈ (mainRun cli w).1 →
      fm = "k8s-psl" ∧ body = [cli.label] ∧ lb = cli.label)
    ∧ (∀ (m : String) (body : List (String × String)) (st : List LabelEntry),
      ssaApply m body (ssaApply m body st) = ssaApply m body st)
    ∧ (∀ (m : String) (body : List (String × String)) (st : List LabelEntry)
        (f : LabelEntry), f ∈ st → f.manager ≠ m →
      assertedKey body f.key = false → f ∈ ssaApply m body st) := by
  refine ⟨?_, ssaApply_idem, ssaApply_preserves⟩
  intro cli w kind ns name lb fm body hmem
  rcases mainRun_events cli w with ⟨_, h⟩ | h | ⟨p, a, _, h⟩ | ⟨p, a, _, h⟩ <;>
    rw [h] at hmem <;> simp [patchBody] at hmem
  obtain ⟨_, _, _, hlb, hfm, hbody⟩ := hmem
  exact ⟨hfm, hbody, hlb⟩

/-- Witness for C6: another manager's entry at an unasserted key
survives a concrete apply by `k8s-psl`. -/
theorem run_patch_attribution_witness :
    LabelEntry.mk "other" "x" "them" ∈
      ssaApply "k8s-psl" [("stage", "done")] [LabelEntry.mk "other" "x" "them"] :=
  run_patch_attribution.2.2 "k8s-psl" [("stage", "done")]
    [LabelEntry.mk "other" "x" "them"] (LabelEntry.mk "other" "x" "them")
    (by decide) (by decide) (by decide)

/-- Claim C7: a run with an empty command-token sequence exits with
code 1, spawns no process and issues no patch request; when the
preceding setup steps succeed, it fails precisely with the
`Missing command` error. -/
theorem run_missing_command (cli : Cli) (w : World) (h : cli.command = []) :
    exitCode (mainRun cli w).2 = 1
    ∧ spawnCount (mainRun cli w).1 = 0
    ∧ patchCount (mainRun cli w).1 = 0
    ∧ (w.inferOk = true → w.clientOk = true →
        (mainRun cli w).2 = RunResult.err "Missing command") := by
  cases h1 : w.inferOk with
  | false =>
    have hr : mainRun cli w =
        ([Event.inferConfig], RunResult.err "config inference failed") := by
      simp [mainRun, h1]
    rw [hr]
    refine ⟨rfl, rfl, rfl, fun hx _ => ?_⟩
    exact Bool.noConfusion hx
  | true =>
    cases h2 : w.clientOk with
    | false =>
      have hr : mainRun cli w =
          ([Event.inferConfig, Event.buildClient 15 15 15],
            RunResult.err "client construction failed") := by
        simp [mainRun, h1, h2]
      rw [hr]
      refine ⟨rfl, rfl, rfl, fun _ hx => ?_⟩
      exact Bool.noConfusion hx
    | true =>
      have hr : mainRun cli w =
          ([Event.inferConfig, Event.buildClient 15 15 15],
            RunResult.err "Missing command") := by
        simp [mainRun, h1, h2, h]
      rw [hr]
      exact ⟨rfl, rfl, rfl, fun _ _ => rfl⟩

/-- Witness for C7: a concrete empty-command run exits 1 and fails with
the `Missing command` error. -/
theorem run_missing_command_witness :
    exitCode (mainRun ⟨"default", ("k", "v"), (ResourceKind.Pod, "r"), []⟩
        ⟨true, true, true, ChildStatus.exited 0, PatchOutcome.success⟩).2 = 1
    ∧ (mainRun ⟨"default", ("k", "v"), (ResourceKind.Pod, "r"), []⟩
        ⟨true, true, true, ChildStatus.exited 0, PatchOutcome.success⟩).2 =
      RunResult.err "Missing command" :=
  ⟨(run_missing_command _ _ rfl).1,
    (run_missing_command _ _ rfl).2.2.2 rfl rfl⟩

/-- Claim C8: every client construction carries connect, read and write
timeouts of exactly 15 seconds; the run's operations are strictly
sequential in program order (config inference, client construction,
child execution, then conditionally the patch); and whenever config
inference succeeds the client is constructed with those timeouts. -/
theorem run_sequential_fixed_timeouts (cli : Cli) (w : World) :
    List.Chain' (fun a b => a < b) (List.map stage (mainRun cli w).1)
    ∧ (∀ c r wr, Event.buildClient c r wr ∈ (mainRun cli w).1 →
        c = 15 ∧ r = 15 ∧ wr = 15)
    ∧ (w.inferOk = true → Event.buildClient 15 15 15 ∈ (mainRun cli w).1) := by
  refine ⟨?_, ?_, ?_⟩
  · rcases mainRun_events cli w with ⟨_, h⟩ | h | ⟨p, a, _, h⟩ | ⟨p, a, _, h⟩ <;>
      rw [h] <;> simp [stage, List.chain'_cons]
  · intro c r wr hmem
    rcases mainRun_events cli w with ⟨_, h⟩ | h | ⟨p, a, _, h⟩ | ⟨p, a, _, h⟩ <;>
      rw [h] at hmem <;> simp at hmem <;> exact hmem
  · intro h1
    rcases mainRun_events cli w with ⟨hf, _⟩ | h | ⟨p, a, _, h⟩ | ⟨p, a, _, h⟩
    · rw [h1] at hf
      exact Bool.noConfusion hf
    · rw [h]; simp
    · rw [h]; simp
    · rw [h]; simp

/-- Witness for C8: in a concrete run the client is constructed with the
fixed 15-second timeouts. -/
theorem run_sequential_fixed_timeouts_witness :
    Event.buildClient 15 15 15 ∈
      (mainRun ⟨"default", ("k", "v"), (ResourceKind.Pod, "r"), ["prog"]⟩
        ⟨true, true, true, ChildStatus.exited 0, PatchOutcome.success⟩).1 :=
  (run_sequential_fixed_timeouts _ _).2.2 rfl

/-- Claim C9: a child that terminates unsuccessfully without a numeric
exit code (e.g. killed by a signal) makes the tool exit with code 1 and
issue no patch request (`status.code()` is `None`, so
`unwrap_or(1)` yields 1). -/
theorem run_signal_exit (cli : Cli) (w : World)
    (h1 : w.inferOk = true) (h2 : w.clientOk = true)
    (prog : String) (args : List String) (h3 : cli.command = prog :: args)
    (h4 : w.spawnOk = true) (h5 : w.child = ChildStatus.signaled) :
    exitCode (mainRun cli w).2 = 1 ∧ patchCount (mainRun cli w).1 = 0 := by
  have hs : statusSuccess w.child = false := by rw [h5]; rfl
  have hrun := mainRun_child_failure cli w h1 h2 prog args h3 h4 hs
  rw [hrun, h5]
  exact ⟨rfl, rfl⟩

/-- Witness for C9: a concrete signal-terminated child gives exit code 1
and no patch. -/
theorem run_signal_exit_witness :
    exitCode (mainRun ⟨"default", ("k", "v"), (ResourceKind.Pod, "r"), ["prog"]⟩
        ⟨true, true, true, ChildStatus.signaled, PatchOutcome.success⟩).2 = 1
    ∧ patchCount (mainRun ⟨"default", ("k", "v"), (ResourceKind.Pod, "r"), ["prog"]⟩
        ⟨true, true, true, ChildStatus.signaled, PatchOutcome.success⟩).1 = 0 :=
  run_signal_exit _ _ rfl rfl "prog" [] rfl rfl rfl

/-- Claim C10: when Kubernetes config inference or client construction
fails, the run aborts with an error (exit code 1) before the child is
ever spawned and before any patch request. -/
theorem run_setup_failure_blocks_child (cli : Cli) (w : World)
    (h : w.inferOk = false ∨ w.clientOk = false) :
    (∃ msg, (mainRun cli w).2 = RunResult.err msg)
    ∧ exitCode (mainRun cli w).2 = 1
    ∧ spawnCount (mainRun cli w).1 = 0
    ∧ patchCount (mainRun cli w).1 = 0 := by
  cases h1 : w.inferOk with
  | false =>
    have hr : mainRun cli w =
        ([Event.inferConfig], RunResult.err "config inference failed") := by
      simp [mainRun, h1]
    rw [hr]
    exact ⟨⟨_, rfl⟩, rfl, rfl, rfl⟩
  | true =>
    have h2 : w.clientOk = false := by
      rcases h with h | h
      · rw [h1] at h
        exact Bool.noConfusion h
      · exact h
    have hr : mainRun cli w =
        ([Event.inferConfig, Event.buildClient 15 15 15],
          RunResult.err "client construction failed") := by
      simp [mainRun, h1, h2]
    rw [hr]
    exact ⟨⟨_, rfl⟩, rfl, rfl, rfl⟩

/-- Witness for C10: a concrete run with failing config inference errors
out with exit code 1, no spawn and no patch. -/
theorem run_setup_failure_blocks_child_witness :
    (∃ msg, (mainRun ⟨"default", ("k", "v"), (ResourceKind.Pod, "r"), ["prog"]⟩
        ⟨false, true, true, ChildStatus.exited 0, PatchOutcome.success⟩).2 =
      RunResult.err msg)
    ∧ exitCode (mainRun ⟨"default", ("k", "v"), (ResourceKind.Pod, "r"), ["prog"]⟩
        ⟨false, true, true, ChildStatus.exited 0, PatchOutcome.success⟩).2 = 1
    ∧ spawnCount (mainRun ⟨"default", ("k", "v"), (ResourceKind.Pod, "r"), ["prog"]⟩
        ⟨false, true, true, ChildStatus.exited 0, PatchOutcome.success⟩).1 = 0
    ∧ patchCount (mainRun ⟨"default", ("k", "v"), (ResourceKind.Pod, "r"), ["prog"]⟩
        ⟨false, true, true, ChildStatus.exited 0, PatchOutcome.success⟩).1 = 0 :=
  run_setup_failure_blocks_child _ _ (Or.inl rfl)

end K8sPsl
